import Mathlib

/-!
Verification development for the project-nimbus message dispatch pipeline.

The dispatcher `sendMessage` is embedded from the source file that defines it
(imports from firebase, axios and the usage-tracking module are modelled as an
explicit environment and an explicit state record).  The invitation-acceptance
handler `handleAcceptInvitation` is embedded from its source component.  The
quota-ledger module itself is not among the provided sources (only its callers
are), so its three operations are modelled from the specification, each marked
as such in its doc comment.
-/

namespace Nimbus

/-- Plan limits for the metered resources (configuration data, spec section 4.1). -/
structure Plan where
  messagesLimit : Nat
  translationsLimit : Nat
  aiInteractionsLimit : Nat
  fileStorageLimit : Nat
deriving DecidableEq

/-- Per-user usage counters, one per metered resource. -/
structure Usage where
  messages : Nat
  translations : Nat
  aiInteractions : Nat
  fileStorageBytes : Nat
deriving DecidableEq

/-- Resource names accepted by the quota ledger check-and-increment operation. -/
inductive Resource
  | messages
  | translations
  | aiInteractions
deriving DecidableEq

/-- Modelled from the spec: `checkAndIncrement(userId, resource) -> allowed: bool`
of the Quota Ledger (the usage-tracking module is absent from the provided
sources; only its callers are present).  Spec section 4.1: atomically reads the
current counter for the resource and, if `counter < limit`, increments it and
returns `true`; otherwise returns `false` and leaves the counter unchanged. -/
def checkAndIncrementUsage (plan : Plan) (u : Usage) (r : Resource) : Bool × Usage :=
  match r with
  | .messages =>
      if u.messages < plan.messagesLimit then
        (true, { u with messages := u.messages + 1 })
      else (false, u)
  | .translations =>
      if u.translations < plan.translationsLimit then
        (true, { u with translations := u.translations + 1 })
      else (false, u)
  | .aiInteractions =>
      if u.aiInteractions < plan.aiInteractionsLimit then
        (true, { u with aiInteractions := u.aiInteractions + 1 })
      else (false, u)

/-- Modelled from the spec: `checkFileStorageLimit(userId, proposedBytes) -> bool`,
a read-only comparison against the file-storage limit, not an increment; it
denies when the prospective total would exceed the limit (spec section 4.1). -/
def checkFileStorageLimit (plan : Plan) (u : Usage) (bytes : Nat) : Bool :=
  u.fileStorageBytes + bytes ≤ plan.fileStorageLimit

/-- Modelled from the spec: `incrementFileStorage(userId, bytes)`, a separate
unconditional add to the file-storage counter (spec section 4.1). -/
def incrementFileStorage (u : Usage) (bytes : Nat) : Usage :=
  { u with fileStorageBytes := u.fileStorageBytes + bytes }

/-- User profile fields consumed by the dispatcher (`preferredLang` may be unset). -/
structure UserData where
  preferredLang : Option String
deriving DecidableEq

/-- Chat record as read by the dispatcher and the acceptance handler:
a `type` string (`"private"`, `"group"`, `"ai"`) and a participant list. -/
structure ChatData where
  type : String
  participants : List String
deriving DecidableEq

/-- File argument of `sendMessage`: name, byte size and MIME type. -/
structure File where
  name : String
  size : Nat
  mimeType : String
deriving DecidableEq

/-- Audio blob argument of `sendMessage`: only its byte size is consumed. -/
structure Blob where
  size : Nat
deriving DecidableEq

/-- Persisted message content: either a single string or a mapping from
language code to text (group chats), kept as an association list in
construction order. -/
inductive MessageContent
  | str : String → MessageContent
  | map : List (String × String) → MessageContent
deriving DecidableEq

/-- Message record assembled by `sendMessage` (the server timestamp is
assigned by the store and carries no information the claims consult). -/
structure Message where
  senderId : String
  chatId : String
  type : String
  content : MessageContent
  originalContent : Option String
  fileUrl : Option String
deriving DecidableEq

/-- External collaborators of one dispatch call: clock, user-profile store,
transcription service outcome (`none` models a failed call) and translation
service outcome (`none` models a failed call, per text and target language). -/
structure Env where
  now : Nat
  users : String → Option UserData
  transcription : Option String
  translationService : String → String → Option String
  downloadURL : String → String

/-- Embeds the `content.trim()` test of the source: whitespace stripped from
both ends, written with structural recursion over the character list so that
concrete runs evaluate inside the kernel (the library `String.trim` is
defined by well-founded recursion and does not reduce). -/
def strTrim (s : String) : String :=
  ⟨((s.data.dropWhile Char.isWhitespace).reverse.dropWhile Char.isWhitespace).reverse⟩

/-- Embeds the source helper `translateMessage`: calls the translation API and
returns the original message when the call fails. -/
def translateMessage (env : Env) (message targetLang : String) : String :=
  match env.translationService message targetLang with
  | some t => t
  | none => message

/-- Observable state threaded through one dispatch call: usage counters, the
message sequence of the chat, the blob uploads performed, and call counters for the
external transcription/translation services and for each kind of quota check. -/
structure SendState where
  usage : Usage
  messages : List Message
  uploads : List (String × Nat)
  transcriptionCalls : Nat
  translationCalls : Nat
  msgChecks : Nat
  transChecks : Nat
  aiChecks : Nat
deriving DecidableEq

/-- Errors thrown by `sendMessage` (abstracting the four `throw new Error`
message strings of the source). -/
inductive SendError
  | messageLimit
  | storageLimit
  | fileTooLarge
  | aiLimit
deriving DecidableEq

/-- Outcome of a dispatch call: normal return or a thrown error, each carrying
the state (side effects performed before a throw persist). -/
inductive SendResult
  | ok : SendState → SendResult
  | err : SendError → SendState → SendResult
deriving DecidableEq

/-- State carried by a dispatch outcome. -/
def SendResult.state : SendResult → SendState
  | .ok s => s
  | .err _ s => s

/-- Error carried by a dispatch outcome, if any. -/
def SendResult.errCode : SendResult → Option SendError
  | .ok _ => none
  | .err e _ => some e

/-- Appends the finished message record to the message sequence of the chat
(the `addDoc` call of the source). -/
def addMessage (st : SendState) (m : Message) : SendResult :=
  .ok { st with messages := st.messages ++ [m] }

/-- Embeds the payload branch of `sendMessage` (audio takes precedence over
file, which takes precedence over text), returning either the thrown error or
the updated state together with the partially built message record. -/
def payloadStage (env : Env) (plan : Plan) (st : SendState)
    (content : String) (file : Option File) (audioBlob : Option Blob)
    (chatId userId : String) : Except (SendError × SendState) (SendState × Message) :=
  match audioBlob with
  | some blob =>
      let fileName := "voice_" ++ toString env.now ++ ".webm"
      let path := "chats/" ++ chatId ++ "/" ++ fileName
      let st1 := { st with uploads := st.uploads ++ [(path, blob.size)] }
      let url := env.downloadURL path
      let st2 := { st1 with usage := incrementFileStorage st1.usage blob.size }
      let st3 := { st2 with transcriptionCalls := st2.transcriptionCalls + 1 }
      let oc :=
        match env.transcription with
        | some t => t
        | none => "Transcription failed"
      .ok (st3, { senderId := userId, chatId := chatId, type := "audio",
                  content := .str fileName, originalContent := some oc,
                  fileUrl := some url })
  | none =>
    match file with
    | some f =>
        if checkFileStorageLimit plan st.usage f.size then
          if f.size > 10 * 1024 * 1024 then
            .error (.fileTooLarge, st)
          else
            let path := "chats/" ++ chatId ++ "/" ++ f.name
            let st1 := { st with uploads := st.uploads ++ [(path, f.size)] }
            let url := env.downloadURL path
            let mt := if f.mimeType.startsWith "image/" then "image" else "file"
            let st2 := { st1 with usage := incrementFileStorage st1.usage f.size }
            .ok (st2, { senderId := userId, chatId := chatId, type := mt,
                        content := .str f.name, originalContent := none,
                        fileUrl := some url })
        else .error (.storageLimit, st)
    | none =>
        .ok (st, { senderId := userId, chatId := chatId, type := "text",
                   content := .str content, originalContent := none,
                   fileUrl := none })

/-- Embeds the group-chat translation fan-out: for each participant language,
in list order, attempt one translation-quota charge and map the language to the
translated text on success or to the original text on denial. -/
def groupTranslate (env : Env) (plan : Plan) (text : String) :
    List String → SendState → List (String × String) × SendState
  | [], st => ([], st)
  | lang :: rest, st =>
      let c := checkAndIncrementUsage plan st.usage .translations
      let st1 := { st with usage := c.2, transChecks := st.transChecks + 1 }
      if c.1 then
        let st2 := { st1 with translationCalls := st1.translationCalls + 1 }
        let tail := groupTranslate env plan text rest st2
        ((lang, translateMessage env text lang) :: tail.1, tail.2)
      else
        let tail := groupTranslate env plan text rest st1
        ((lang, text) :: tail.1, tail.2)

/-- Embeds the translation stage and the final append of `sendMessage`: for a
text or audio message the content is rewritten according to the chat type
(private lookup-and-translate, group fan-out, ai hard-gated pass-through),
then the record is appended. -/
def afterPayload (env : Env) (plan : Plan) (st : SendState) (msg : Message)
    (content : String) (userId : String) (chatData : ChatData)
    (participantLanguages : List String) : SendResult :=
  if msg.type = "text" ∨ msg.type = "audio" then
    let text := if msg.type = "audio" then msg.originalContent.getD "" else content
    if chatData.type = "private" then
      match chatData.participants.find? (fun p => p != userId) with
      | some otherId =>
        match env.users otherId with
        | some userData =>
            let c := checkAndIncrementUsage plan st.usage .translations
            let st1 := { st with usage := c.2, transChecks := st.transChecks + 1 }
            if c.1 then
              let st2 := { st1 with translationCalls := st1.translationCalls + 1 }
              let tmsg := translateMessage env text (userData.preferredLang.getD "en")
              addMessage st2 { msg with content := .str tmsg }
            else
              addMessage st1 { msg with content := .str text }
        | none => addMessage st msg
      | none => addMessage st msg
    else if chatData.type = "group" then
      let r := groupTranslate env plan text participantLanguages st
      addMessage r.2 { msg with content := .map r.1 }
    else if chatData.type = "ai" then
      let msg2 := { msg with content := .str text }
      let c := checkAndIncrementUsage plan st.usage .aiInteractions
      let st1 := { st with usage := c.2, aiChecks := st.aiChecks + 1 }
      if c.1 then addMessage st1 msg2
      else .err .aiLimit st1
    else addMessage st msg
  else addMessage st msg

/-- Embeds `sendMessage`: silent return on empty input or absent user id, then
the message-quota gate, the payload branch, the translation stage and the final
append. -/
def sendMessage (env : Env) (plan : Plan) (st : SendState)
    (content : String) (file : Option File) (audioBlob : Option Blob)
    (chatId userId : String) (chatData : ChatData)
    (participantLanguages : List String) : SendResult :=
  if (strTrim content = "" ∧ file = none ∧ audioBlob = none) ∨ userId = "" then
    .ok st
  else
    let c := checkAndIncrementUsage plan st.usage .messages
    let st1 := { st with usage := c.2, msgChecks := st.msgChecks + 1 }
    if c.1 then
      match payloadStage env plan st1 content file audioBlob chatId userId with
      | .error es => .err es.1 es.2
      | .ok sm =>
          afterPayload env plan sm.1 sm.2 content userId chatData participantLanguages
    else .err .messageLimit st1

/-- Text handed to the translation stage: the transcript (or the failure
placeholder) for an audio send, the literal content for a text send. -/
def textToTranslate (env : Env) (content : String) (audioBlob : Option Blob) : String :=
  match audioBlob with
  | some _ =>
      match env.transcription with
      | some t => t
      | none => "Transcription failed"
  | none => content

/-- State after the audio payload branch: blob uploaded, storage charged,
transcription attempted, message-quota check recorded (abbreviation used to
state reduction lemmas about `sendMessage`). -/
def audioStageState (env : Env) (plan : Plan) (st : SendState) (blob : Blob)
    (chatId : String) : SendState :=
  { usage := incrementFileStorage (checkAndIncrementUsage plan st.usage .messages).2 blob.size,
    messages := st.messages,
    uploads := st.uploads ++
      [("chats/" ++ chatId ++ "/" ++ ("voice_" ++ toString env.now ++ ".webm"), blob.size)],
    transcriptionCalls := st.transcriptionCalls + 1,
    translationCalls := st.translationCalls,
    msgChecks := st.msgChecks + 1, transChecks := st.transChecks,
    aiChecks := st.aiChecks }

/-- Message record built by the audio payload branch. -/
def audioStageMessage (env : Env) (chatId userId : String) : Message :=
  { senderId := userId, chatId := chatId, type := "audio",
    content := .str ("voice_" ++ toString env.now ++ ".webm"),
    originalContent := some (env.transcription.getD "Transcription failed"),
    fileUrl := some (env.downloadURL
      ("chats/" ++ chatId ++ "/" ++ ("voice_" ++ toString env.now ++ ".webm"))) }

/-- State after the text payload branch: only the message-quota check recorded. -/
def textStageState (plan : Plan) (st : SendState) : SendState :=
  { usage := (checkAndIncrementUsage plan st.usage .messages).2,
    messages := st.messages, uploads := st.uploads,
    transcriptionCalls := st.transcriptionCalls, translationCalls := st.translationCalls,
    msgChecks := st.msgChecks + 1, transChecks := st.transChecks,
    aiChecks := st.aiChecks }

/-- Message record built by the text payload branch. -/
def textStageMessage (content chatId userId : String) : Message :=
  { senderId := userId, chatId := chatId, type := "text",
    content := .str content, originalContent := none, fileUrl := none }

/-- Errors surfaced by the invitation-acceptance handler (abstracting its
three `throw new Error` message strings). -/
inductive AcceptError
  | invalidInvitation
  | privateFull
  | aiNoInvite
deriving DecidableEq

/-- Terminal state reached by one acceptance run: the `error` state, or the
`redirecting` state together with the updated chat record written back. -/
inductive AcceptOutcome
  | error : AcceptError → AcceptOutcome
  | redirecting : ChatData → AcceptOutcome
deriving DecidableEq

/-- Firestore `arrayUnion` on a participant list: adds the element only when
it is not already present. -/
def arrayUnion (l : List String) (x : String) : List String :=
  if x ∈ l then l else l ++ [x]

/-- Embeds `handleAcceptInvitation`: given the fetched chat snapshot (`none`
when the chat does not exist) and the accepting user id, either reach the
terminal error state or union the user into the participants and redirect. -/
def handleAcceptInvitation (chatSnap : Option ChatData) (userId : String) : AcceptOutcome :=
  match chatSnap with
  | none => .error .invalidInvitation
  | some chatData =>
      if chatData.type = "private" ∧ 2 ≤ chatData.participants.length then
        .error .privateFull
      else if chatData.type = "ai" then
        .error .aiNoInvite
      else
        .redirecting { chatData with participants := arrayUnion chatData.participants userId }

/-! Concrete fixtures used by witnesses and counterexamples. -/

/-- Concrete environment: user `b` prefers French, transcription succeeds with
`hello`, the translation service appends the target language. -/
def env0 : Env :=
  { now := 0,
    users := fun uid => if uid = "b" then some { preferredLang := some "fr" } else none,
    transcription := some "hello",
    translationService := fun s l => some (s ++ "-" ++ l),
    downloadURL := fun _ => "url" }

/-- The environment with an unreachable transcription service. -/
def envT : Env := { env0 with transcription := none }

/-- The default plan limits given in the spec. -/
def plan0 : Plan :=
  { messagesLimit := 100, translationsLimit := 50, aiInteractionsLimit := 20,
    fileStorageLimit := 50 * 1024 * 1024 }

/-- The default plan with the message quota already exhausted at zero. -/
def planM : Plan := { plan0 with messagesLimit := 0 }

/-- The default plan with the AI-interaction quota already exhausted at zero. -/
def planA : Plan := { plan0 with aiInteractionsLimit := 0 }

/-- The default plan admitting exactly one translation unit. -/
def planT1 : Plan := { plan0 with translationsLimit := 1 }

/-- Fresh dispatch state: zero counters, no messages, no uploads. -/
def st0 : SendState :=
  { usage := { messages := 0, translations := 0, aiInteractions := 0, fileStorageBytes := 0 },
    messages := [], uploads := [], transcriptionCalls := 0, translationCalls := 0,
    msgChecks := 0, transChecks := 0, aiChecks := 0 }

/-- A private chat between users `a` and `b`. -/
def chatP : ChatData := { type := "private", participants := ["a", "b"] }

/-- A group chat with three participants. -/
def chatG : ChatData := { type := "group", participants := ["a", "b", "c"] }

/-- An AI chat with its single human participant. -/
def chatAI : ChatData := { type := "ai", participants := ["a"] }

/-- A five-byte audio blob. -/
def blob5 : Blob := { size := 5 }

/-- A twenty-mebibyte audio blob (twice the absolute file cap). -/
def blobBig : Blob := { size := 20 * 1024 * 1024 }

/-- Dispatch state whose file-storage counter already sits at the default
50 MiB limit of the default plan. -/
def stFull : SendState :=
  { st0 with usage := { st0.usage with fileStorageBytes := 50 * 1024 * 1024 } }

/-- A twelve-mebibyte file. -/
def bigFile : File :=
  { name := "big.bin", size := 12 * 1024 * 1024, mimeType := "application/pdf" }

/-! Helper lemmas about the quota ledger and the stages of the dispatcher. -/

lemma check_messages_pos {plan : Plan} {u : Usage} (h : u.messages < plan.messagesLimit) :
    checkAndIncrementUsage plan u .messages = (true, { u with messages := u.messages + 1 }) := by
  simp only [checkAndIncrementUsage]
  rw [if_pos h]

lemma check_messages_neg {plan : Plan} {u : Usage} (h : plan.messagesLimit ≤ u.messages) :
    checkAndIncrementUsage plan u .messages = (false, u) := by
  simp only [checkAndIncrementUsage]
  rw [if_neg (by omega)]

lemma check_translations_pos {plan : Plan} {u : Usage}
    (h : u.translations < plan.translationsLimit) :
    checkAndIncrementUsage plan u .translations =
      (true, { u with translations := u.translations + 1 }) := by
  simp only [checkAndIncrementUsage]
  rw [if_pos h]

lemma check_translations_neg {plan : Plan} {u : Usage}
    (h : plan.translationsLimit ≤ u.translations) :
    checkAndIncrementUsage plan u .translations = (false, u) := by
  simp only [checkAndIncrementUsage]
  rw [if_neg (by omega)]

lemma check_ai_pos {plan : Plan} {u : Usage}
    (h : u.aiInteractions < plan.aiInteractionsLimit) :
    checkAndIncrementUsage plan u .aiInteractions =
      (true, { u with aiInteractions := u.aiInteractions + 1 }) := by
  simp only [checkAndIncrementUsage]
  rw [if_pos h]

lemma check_ai_neg {plan : Plan} {u : Usage}
    (h : plan.aiInteractionsLimit ≤ u.aiInteractions) :
    checkAndIncrementUsage plan u .aiInteractions = (false, u) := by
  simp only [checkAndIncrementUsage]
  rw [if_neg (by omega)]

@[simp] lemma check_translations_fileStorage (plan : Plan) (u : Usage) :
    ((checkAndIncrementUsage plan u .translations).2).fileStorageBytes = u.fileStorageBytes := by
  simp only [checkAndIncrementUsage]
  split <;> rfl

@[simp] lemma check_translations_messages (plan : Plan) (u : Usage) :
    ((checkAndIncrementUsage plan u .translations).2).messages = u.messages := by
  simp only [checkAndIncrementUsage]
  split <;> rfl

@[simp] lemma check_translations_ai (plan : Plan) (u : Usage) :
    ((checkAndIncrementUsage plan u .translations).2).aiInteractions = u.aiInteractions := by
  simp only [checkAndIncrementUsage]
  split <;> rfl

@[simp] lemma check_ai_fileStorage (plan : Plan) (u : Usage) :
    ((checkAndIncrementUsage plan u .aiInteractions).2).fileStorageBytes = u.fileStorageBytes := by
  simp only [checkAndIncrementUsage]
  split <;> rfl

@[simp] lemma check_ai_messages (plan : Plan) (u : Usage) :
    ((checkAndIncrementUsage plan u .aiInteractions).2).messages = u.messages := by
  simp only [checkAndIncrementUsage]
  split <;> rfl

@[simp] lemma check_ai_translations (plan : Plan) (u : Usage) :
    ((checkAndIncrementUsage plan u .aiInteractions).2).translations = u.translations := by
  simp only [checkAndIncrementUsage]
  split <;> rfl

lemma payloadStage_audio (env : Env) (plan : Plan) (st : SendState) (content : String)
    (file : Option File) (blob : Blob) (chatId userId : String) :
    payloadStage env plan st content file (some blob) chatId userId =
      .ok ({ st with
              uploads := st.uploads ++
                [("chats/" ++ chatId ++ "/" ++ ("voice_" ++ toString env.now ++ ".webm"),
                  blob.size)],
              usage := incrementFileStorage st.usage blob.size,
              transcriptionCalls := st.transcriptionCalls + 1 },
           { senderId := userId, chatId := chatId, type := "audio",
             content := .str ("voice_" ++ toString env.now ++ ".webm"),
             originalContent := some (env.transcription.getD "Transcription failed"),
             fileUrl := some (env.downloadURL
               ("chats/" ++ chatId ++ "/" ++ ("voice_" ++ toString env.now ++ ".webm"))) }) := by
  unfold payloadStage
  cases env.transcription <;> rfl

lemma payloadStage_text (env : Env) (plan : Plan) (st : SendState) (content : String)
    (chatId userId : String) :
    payloadStage env plan st content none none chatId userId =
      .ok (st, { senderId := userId, chatId := chatId, type := "text",
                 content := .str content, originalContent := none, fileUrl := none }) := rfl

lemma payloadStage_error_state (env : Env) (plan : Plan) (st : SendState) (content : String)
    (file : Option File) (audioBlob : Option Blob) (chatId userId : String)
    (e : SendError) (s : SendState)
    (h : payloadStage env plan st content file audioBlob chatId userId = .error (e, s)) :
    s = st := by
  cases audioBlob with
  | some blob => simp [payloadStage] at h
  | none =>
    cases file with
    | none => simp [payloadStage] at h
    | some f =>
      simp only [payloadStage] at h
      split at h
      · split at h
        · simp only [Except.error.injEq, Prod.mk.injEq] at h
          exact h.2.symm
        · simp at h
      · simp only [Except.error.injEq, Prod.mk.injEq] at h
        exact h.2.symm

lemma payloadStage_ok_state (env : Env) (plan : Plan) (st : SendState) (content : String)
    (file : Option File) (audioBlob : Option Blob) (chatId userId : String)
    (s : SendState) (m : Message)
    (h : payloadStage env plan st content file audioBlob chatId userId = .ok (s, m)) :
    s.messages = st.messages ∧ s.usage.translations = st.usage.translations
    ∧ s.usage.aiInteractions = st.usage.aiInteractions
    ∧ s.usage.messages = st.usage.messages
    ∧ s.transChecks = st.transChecks ∧ s.aiChecks = st.aiChecks
    ∧ s.msgChecks = st.msgChecks ∧ s.translationCalls = st.translationCalls := by
  cases audioBlob with
  | some blob =>
    simp only [payloadStage, Except.ok.injEq, Prod.mk.injEq] at h
    obtain ⟨hs, -⟩ := h
    subst hs
    simp [incrementFileStorage]
  | none =>
    cases file with
    | none =>
      simp only [payloadStage, Except.ok.injEq, Prod.mk.injEq] at h
      obtain ⟨hs, -⟩ := h
      subst hs
      simp
    | some f =>
      simp only [payloadStage] at h
      split at h
      · split at h
        · simp at h
        · simp only [Except.ok.injEq, Prod.mk.injEq] at h
          obtain ⟨hs, -⟩ := h
          subst hs
          simp [incrementFileStorage]
      · simp at h

lemma groupTranslate_nil (env : Env) (plan : Plan) (text : String) (st : SendState) :
    groupTranslate env plan text [] st = ([], st) := rfl

lemma groupTranslate_cons_pos (env : Env) (plan : Plan) (text lang : String)
    (rest : List String) (st : SendState)
    (hc : st.usage.translations < plan.translationsLimit) :
    groupTranslate env plan text (lang :: rest) st =
      ((lang, translateMessage env text lang) ::
         (groupTranslate env plan text rest
           { st with
              usage := { st.usage with translations := st.usage.translations + 1 },
              transChecks := st.transChecks + 1,
              translationCalls := st.translationCalls + 1 }).1,
       (groupTranslate env plan text rest
           { st with
              usage := { st.usage with translations := st.usage.translations + 1 },
              transChecks := st.transChecks + 1,
              translationCalls := st.translationCalls + 1 }).2) := by
  simp [groupTranslate, check_translations_pos hc]

lemma groupTranslate_cons_neg (env : Env) (plan : Plan) (text lang : String)
    (rest : List String) (st : SendState)
    (hle : plan.translationsLimit ≤ st.usage.translations) :
    groupTranslate env plan text (lang :: rest) st =
      ((lang, text) ::
         (groupTranslate env plan text rest
           { st with transChecks := st.transChecks + 1 }).1,
       (groupTranslate env plan text rest
           { st with transChecks := st.transChecks + 1 }).2) := by
  simp [groupTranslate, check_translations_neg hle]

lemma groupTranslate_fst (env : Env) (plan : Plan) (text : String) :
    ∀ (langs : List String) (st : SendState),
      ((groupTranslate env plan text langs st).1).map Prod.fst = langs := by
  intro langs
  induction langs with
  | nil => intro st; rfl
  | cons lang rest ih =>
    intro st
    by_cases hc : st.usage.translations < plan.translationsLimit
    · rw [groupTranslate_cons_pos env plan text lang rest st hc]
      simp [ih]
    · rw [groupTranslate_cons_neg env plan text lang rest st (by omega)]
      simp [ih]

lemma groupTranslate_messages (env : Env) (plan : Plan) (text : String) :
    ∀ (langs : List String) (st : SendState),
      (groupTranslate env plan text langs st).2.messages = st.messages := by
  intro langs
  induction langs with
  | nil => intro st; rfl
  | cons lang rest ih =>
    intro st
    by_cases hc : st.usage.translations < plan.translationsLimit
    · rw [groupTranslate_cons_pos env plan text lang rest st hc]
      exact ih _
    · rw [groupTranslate_cons_neg env plan text lang rest st (by omega)]
      exact ih _

lemma groupTranslate_uploads (env : Env) (plan : Plan) (text : String) :
    ∀ (langs : List String) (st : SendState),
      (groupTranslate env plan text langs st).2.uploads = st.uploads := by
  intro langs
  induction langs with
  | nil => intro st; rfl
  | cons lang rest ih =>
    intro st
    by_cases hc : st.usage.translations < plan.translationsLimit
    · rw [groupTranslate_cons_pos env plan text lang rest st hc]
      exact ih _
    · rw [groupTranslate_cons_neg env plan text lang rest st (by omega)]
      exact ih _

lemma groupTranslate_fileStorage (env : Env) (plan : Plan) (text : String) :
    ∀ (langs : List String) (st : SendState),
      (groupTranslate env plan text langs st).2.usage.fileStorageBytes
        = st.usage.fileStorageBytes := by
  intro langs
  induction langs with
  | nil => intro st; rfl
  | cons lang rest ih =>
    intro st
    by_cases hc : st.usage.translations < plan.translationsLimit
    · rw [groupTranslate_cons_pos env plan text lang rest st hc]
      exact ih _
    · rw [groupTranslate_cons_neg env plan text lang rest st (by omega)]
      exact ih _

lemma groupTranslate_usageMessages (env : Env) (plan : Plan) (text : String) :
    ∀ (langs : List String) (st : SendState),
      (groupTranslate env plan text langs st).2.usage.messages = st.usage.messages := by
  intro langs
  induction langs with
  | nil => intro st; rfl
  | cons lang rest ih =>
    intro st
    by_cases hc : st.usage.translations < plan.translationsLimit
    · rw [groupTranslate_cons_pos env plan text lang rest st hc]
      exact ih _
    · rw [groupTranslate_cons_neg env plan text lang rest st (by omega)]
      exact ih _

lemma groupTranslate_usageAI (env : Env) (plan : Plan) (text : String) :
    ∀ (langs : List String) (st : SendState),
      (groupTranslate env plan text langs st).2.usage.aiInteractions
        = st.usage.aiInteractions := by
  intro langs
  induction langs with
  | nil => intro st; rfl
  | cons lang rest ih =>
    intro st
    by_cases hc : st.usage.translations < plan.translationsLimit
    · rw [groupTranslate_cons_pos env plan text lang rest st hc]
      exact ih _
    · rw [groupTranslate_cons_neg env plan text lang rest st (by omega)]
      exact ih _

lemma groupTranslate_transcriptionCalls (env : Env) (plan : Plan) (text : String) :
    ∀ (langs : List String) (st : SendState),
      (groupTranslate env plan text langs st).2.transcriptionCalls
        = st.transcriptionCalls := by
  intro langs
  induction langs with
  | nil => intro st; rfl
  | cons lang rest ih =>
    intro st
    by_cases hc : st.usage.translations < plan.translationsLimit
    · rw [groupTranslate_cons_pos env plan text lang rest st hc]
      exact ih _
    · rw [groupTranslate_cons_neg env plan text lang rest st (by omega)]
      exact ih _

lemma groupTranslate_transChecks (env : Env) (plan : Plan) (text : String) :
    ∀ (langs : List String) (st : SendState),
      (groupTranslate env plan text langs st).2.transChecks
        = st.transChecks + langs.length := by
  intro langs
  induction langs with
  | nil => intro st; rfl
  | cons lang rest ih =>
    intro st
    by_cases hc : st.usage.translations < plan.translationsLimit
    · rw [groupTranslate_cons_pos env plan text lang rest st hc]
      rw [ih]
      simp
      omega
    · rw [groupTranslate_cons_neg env plan text lang rest st (by omega)]
      rw [ih]
      simp
      omega

lemma groupTranslate_idx (env : Env) (plan : Plan) (text : String) :
    ∀ (langs : List String) (st : SendState) (i : Nat) (h : i < langs.length),
      (groupTranslate env plan text langs st).1[i]? =
        some (langs.get ⟨i, h⟩,
          if st.usage.translations + i < plan.translationsLimit then
            translateMessage env text (langs.get ⟨i, h⟩)
          else text) := by
  intro langs
  induction langs with
  | nil => intro st i h; exact absurd h (by simp)
  | cons lang rest ih =>
    intro st i h
    by_cases hc : st.usage.translations < plan.translationsLimit
    · rw [groupTranslate_cons_pos env plan text lang rest st hc]
      cases i with
      | zero => simp [List.get, hc]
      | succ j =>
        have hj : j < rest.length := by simpa using h
        rw [List.getElem?_cons_succ, ih _ j hj]
        have harith :
            ({ st with
                usage := { st.usage with translations := st.usage.translations + 1 },
                transChecks := st.transChecks + 1,
                translationCalls := st.translationCalls + 1 } :
              SendState).usage.translations + j
              = st.usage.translations + (j + 1) := by
          show st.usage.translations + 1 + j = st.usage.translations + (j + 1)
          omega
        rw [harith]
        simp [List.get]
    · rw [groupTranslate_cons_neg env plan text lang rest st (by omega)]
      cases i with
      | zero => simp [List.get, hc]
      | succ j =>
        have hj : j < rest.length := by simpa using h
        rw [List.getElem?_cons_succ, ih _ j hj]
        have hA : ¬ ({ st with transChecks := st.transChecks + 1 } :
            SendState).usage.translations + j < plan.translationsLimit := by
          show ¬ st.usage.translations + j < plan.translationsLimit
          omega
        rw [if_neg hA, if_neg (by omega : ¬ st.usage.translations + (j + 1)
          < plan.translationsLimit)]
        simp [List.get]

lemma afterPayload_preserves (env : Env) (plan : Plan) (st : SendState) (msg : Message)
    (content userId : String) (chatData : ChatData) (langs : List String) :
    (afterPayload env plan st msg content userId chatData langs).state.uploads = st.uploads
    ∧ (afterPayload env plan st msg content userId chatData langs).state.usage.fileStorageBytes
        = st.usage.fileStorageBytes
    ∧ (afterPayload env plan st msg content userId chatData langs).state.transcriptionCalls
        = st.transcriptionCalls
    ∧ (afterPayload env plan st msg content userId chatData langs).state.usage.messages
        = st.usage.messages
    ∧ ((afterPayload env plan st msg content userId chatData langs).errCode = none
        ∨ (afterPayload env plan st msg content userId chatData langs).errCode
            = some .aiLimit)
    ∧ ((afterPayload env plan st msg content userId chatData langs).errCode ≠ none →
        (afterPayload env plan st msg content userId chatData langs).state.messages
          = st.messages) := by
  unfold afterPayload
  repeat' split
  all_goals (
    rcases Bool.eq_false_or_eq_true
      (checkAndIncrementUsage plan st.usage Resource.translations).1 with hb | hb <;>
    rcases Bool.eq_false_or_eq_true
      (checkAndIncrementUsage plan st.usage Resource.aiInteractions).1 with hb2 | hb2 <;>
    simp [hb, hb2, addMessage, SendResult.state, SendResult.errCode,
      groupTranslate_uploads, groupTranslate_fileStorage,
      groupTranslate_transcriptionCalls, groupTranslate_usageMessages,
      groupTranslate_messages])

lemma afterPayload_ok_shape (env : Env) (plan : Plan) (st : SendState) (msg : Message)
    (content userId : String) (chatData : ChatData) (langs : List String)
    (hcond : chatData.type = "ai" → st.usage.aiInteractions < plan.aiInteractionsLimit) :
    (afterPayload env plan st msg content userId chatData langs).errCode = none
    ∧ ((afterPayload env plan st msg content userId chatData langs).state.messages).map
          (fun m => (m.type, m.originalContent))
        = st.messages.map (fun m => (m.type, m.originalContent))
            ++ [(msg.type, msg.originalContent)] := by
  unfold afterPayload
  repeat' split
  all_goals (
    rcases Bool.eq_false_or_eq_true
      (checkAndIncrementUsage plan st.usage Resource.translations).1 with hb | hb <;>
    rcases Bool.eq_false_or_eq_true
      (checkAndIncrementUsage plan st.usage Resource.aiInteractions).1 with hb2 | hb2 <;>
    first
      | (simp [hb, hb2, addMessage, SendResult.errCode, SendResult.state,
          groupTranslate_messages]
         done)
      | (simp_all [check_ai_pos]; done))

@[simp] lemma check_messages_fileStorage (plan : Plan) (u : Usage) :
    ((checkAndIncrementUsage plan u .messages).2).fileStorageBytes = u.fileStorageBytes := by
  simp only [checkAndIncrementUsage]
  split <;> rfl

@[simp] lemma check_messages_translations (plan : Plan) (u : Usage) :
    ((checkAndIncrementUsage plan u .messages).2).translations = u.translations := by
  simp only [checkAndIncrementUsage]
  split <;> rfl

@[simp] lemma check_messages_ai (plan : Plan) (u : Usage) :
    ((checkAndIncrementUsage plan u .messages).2).aiInteractions = u.aiInteractions := by
  simp only [checkAndIncrementUsage]
  split <;> rfl

lemma check_fail_usage {plan : Plan} {u : Usage} {r : Resource}
    (hb : (checkAndIncrementUsage plan u r).1 = false) :
    (checkAndIncrementUsage plan u r).2 = u := by
  cases r
  case messages =>
    by_cases h : u.messages < plan.messagesLimit
    · rw [check_messages_pos h] at hb
      simp at hb
    · rw [check_messages_neg (by omega)]
  case translations =>
    by_cases h : u.translations < plan.translationsLimit
    · rw [check_translations_pos h] at hb
      simp at hb
    · rw [check_translations_neg (by omega)]
  case aiInteractions =>
    by_cases h : u.aiInteractions < plan.aiInteractionsLimit
    · rw [check_ai_pos h] at hb
      simp at hb
    · rw [check_ai_neg (by omega)]

lemma arrayUnion_length (l : List String) (x : String) :
    (arrayUnion l x).length ≤ l.length + 1 := by
  unfold arrayUnion
  split <;> simp

/-- C8 (amended): a call with empty trimmed content and no file and no audio
blob, or with an absent user id, returns immediately as a silent no-op: no
error is raised and the state (counters, uploads, message sequence) is exactly
unchanged. -/
theorem sendMessage_invalid_input_noop (env : Env) (plan : Plan) (st : SendState)
    (content : String) (file : Option File) (audioBlob : Option Blob)
    (chatId userId : String) (chatData : ChatData) (langs : List String)
    (h : (strTrim content = "" ∧ file = none ∧ audioBlob = none) ∨ userId = "") :
    sendMessage env plan st content file audioBlob chatId userId chatData langs
      = .ok st := by
  unfold sendMessage
  rw [if_pos h]

theorem sendMessage_invalid_input_noop_witness :
    ((strTrim "" = "" ∧ (none : Option File) = none ∧ (none : Option Blob) = none)
        ∨ ("u" : String) = "")
    ∧ sendMessage env0 plan0 st0 "" none none "c" "u" chatP [] = .ok st0 :=
  ⟨Or.inl ⟨by decide, rfl, rfl⟩,
   sendMessage_invalid_input_noop env0 plan0 st0 "" none none "c" "u" chatP []
     (Or.inl ⟨by decide, rfl, rfl⟩)⟩

/-- C8 (counterexample to the claim as stated): on empty input the call does
not fail with an error — it returns successfully (error code `none`) with the
state untouched, contradicting the claimed error. -/
theorem sendMessage_empty_input_silent :
    (sendMessage env0 plan0 st0 "" none none "c" "u" chatP []).errCode = none
    ∧ (sendMessage env0 plan0 st0 "" none none "c" "u" chatP []).state = st0 :=
  ⟨rfl, rfl⟩

/-- C1: when the message counter is at its plan limit (the check-and-increment
is denied), a valid send fails with the message-quota error and the resulting
state shows only the attempted check: no message is appended, no upload, no
transcription or translation call, and no counter changes. -/
theorem sendMessage_messageLimit_rejects (env : Env) (plan : Plan) (st : SendState)
    (content : String) (file : Option File) (audioBlob : Option Blob)
    (chatId userId : String) (chatData : ChatData) (langs : List String)
    (hv : ¬((strTrim content = "" ∧ file = none ∧ audioBlob = none) ∨ userId = ""))
    (hlimit : plan.messagesLimit ≤ st.usage.messages) :
    sendMessage env plan st content file audioBlob chatId userId chatData langs
      = .err .messageLimit { st with msgChecks := st.msgChecks + 1 } := by
  unfold sendMessage
  rw [if_neg hv]
  simp [check_messages_neg hlimit]

theorem sendMessage_messageLimit_rejects_witness :
    ¬((strTrim "hi" = "" ∧ (none : Option File) = none
          ∧ (none : Option Blob) = none) ∨ ("a" : String) = "")
    ∧ planM.messagesLimit ≤ st0.usage.messages
    ∧ sendMessage env0 planM st0 "hi" none none "c" "a" chatP []
        = .err .messageLimit { st0 with msgChecks := st0.msgChecks + 1 } :=
  ⟨by decide, by decide,
   sendMessage_messageLimit_rejects env0 planM st0 "hi" none none "c" "a" chatP []
     (by decide) (by decide)⟩

/-- C5: a send whose payload is a file strictly larger than 10 MiB is rejected
with an error whatever the plan limits: no message is appended, no upload is
recorded, and the file-storage counter is unchanged. -/
theorem sendMessage_oversize_file_rejected (env : Env) (plan : Plan) (st : SendState)
    (content : String) (f : File) (chatId userId : String) (chatData : ChatData)
    (langs : List String)
    (huid : userId ≠ "")
    (hsize : 10 * 1024 * 1024 < f.size) :
    ((sendMessage env plan st content (some f) none chatId userId chatData langs).errCode).isSome
        = true
    ∧ (sendMessage env plan st content (some f) none chatId userId chatData langs).state.messages
        = st.messages
    ∧ (sendMessage env plan st content (some f) none chatId userId chatData langs).state.uploads
        = st.uploads
    ∧ (sendMessage env plan st content (some f) none chatId
          userId chatData langs).state.usage.fileStorageBytes
        = st.usage.fileStorageBytes := by
  have hv : ¬((strTrim content = "" ∧ (some f : Option File) = none
      ∧ (none : Option Blob) = none) ∨ userId = "") := by
    simp [huid]
  unfold sendMessage
  rw [if_neg hv]
  rcases Bool.eq_false_or_eq_true
    (checkAndIncrementUsage plan st.usage .messages).1 with hb | hb
  · rcases Bool.eq_false_or_eq_true
      (checkFileStorageLimit plan ((checkAndIncrementUsage plan st.usage .messages).2)
        f.size) with hcap | hcap
    · simp [hb, hcap, hsize, payloadStage, SendResult.errCode, SendResult.state]
    · simp [hb, hcap, payloadStage, SendResult.errCode, SendResult.state]
  · simp [hb, check_fail_usage hb, SendResult.errCode, SendResult.state]

theorem sendMessage_oversize_file_rejected_witness :
    ("a" : String) ≠ ""
    ∧ 10 * 1024 * 1024 < bigFile.size
    ∧ (((sendMessage env0 plan0 st0 "" (some bigFile) none "c" "a" chatP []).errCode).isSome
          = true
       ∧ (sendMessage env0 plan0 st0 "" (some bigFile) none "c" "a" chatP []).state.messages
          = st0.messages
       ∧ (sendMessage env0 plan0 st0 "" (some bigFile) none "c" "a" chatP []).state.uploads
          = st0.uploads
       ∧ (sendMessage env0 plan0 st0 "" (some bigFile) none "c" "a"
            chatP []).state.usage.fileStorageBytes
          = st0.usage.fileStorageBytes) :=
  ⟨by decide, by decide,
   sendMessage_oversize_file_rejected env0 plan0 st0 "" bigFile "c" "a" chatP []
     (by decide) (by decide)⟩

/-- C7 (amended): every dispatch that ends in a thrown error appends no
message — the message sequence of the chat is exactly as before the call (usage
counters incremented before the failure point are, however, retained; see the
counterexample). -/
theorem sendMessage_hard_failure_no_append (env : Env) (plan : Plan) (st : SendState)
    (content : String) (file : Option File) (audioBlob : Option Blob)
    (chatId userId : String) (chatData : ChatData) (langs : List String)
    (e : SendError) (s : SendState)
    (h : sendMessage env plan st content file audioBlob chatId userId chatData langs
          = .err e s) :
    s.messages = st.messages := by
  simp only [sendMessage] at h
  by_cases hv : (strTrim content = "" ∧ file = none ∧ audioBlob = none) ∨ userId = ""
  · rw [if_pos hv] at h
    simp at h
  · rw [if_neg hv] at h
    rcases Bool.eq_false_or_eq_true
      (checkAndIncrementUsage plan st.usage .messages).1 with hb | hb
    · rw [if_pos hb] at h
      cases hps : payloadStage env plan
          { usage := (checkAndIncrementUsage plan st.usage Resource.messages).2,
            messages := st.messages, uploads := st.uploads,
            transcriptionCalls := st.transcriptionCalls,
            translationCalls := st.translationCalls, msgChecks := st.msgChecks + 1,
            transChecks := st.transChecks, aiChecks := st.aiChecks }
          content file audioBlob chatId userId with
      | error es =>
        rw [hps] at h
        have h2 : SendResult.err es.1 es.2 = SendResult.err e s := h
        simp only [SendResult.err.injEq] at h2
        obtain ⟨-, hs⟩ := h2
        subst hs
        have := payloadStage_error_state env plan _ content file audioBlob chatId userId
          es.1 es.2 (by rw [hps])
        rw [this]
      | ok sm =>
        rw [hps] at h
        have h2 : afterPayload env plan sm.1 sm.2 content userId chatData langs
            = SendResult.err e s := h
        obtain ⟨-, -, -, -, -, himp⟩ :=
          afterPayload_preserves env plan sm.1 sm.2 content userId chatData langs
        have hne : (afterPayload env plan sm.1 sm.2 content userId chatData langs).errCode
            ≠ none := by
          rw [h2]
          simp [SendResult.errCode]
        have hm := himp hne
        rw [h2] at hm
        simp only [SendResult.state] at hm
        rw [hm]
        exact (payloadStage_ok_state env plan
          { usage := (checkAndIncrementUsage plan st.usage Resource.messages).2,
            messages := st.messages, uploads := st.uploads,
            transcriptionCalls := st.transcriptionCalls,
            translationCalls := st.translationCalls, msgChecks := st.msgChecks + 1,
            transChecks := st.transChecks, aiChecks := st.aiChecks }
          content file audioBlob chatId userId sm.1 sm.2 (by rw [hps])).1
    · rw [if_neg (by simp [hb])] at h
      simp only [SendResult.err.injEq] at h
      obtain ⟨-, hs⟩ := h
      subst hs
      rfl

theorem sendMessage_hard_failure_no_append_witness :
    (sendMessage env0 planM st0 "hi" none none "c" "a" chatP []).state.messages
      = st0.messages :=
  sendMessage_hard_failure_no_append env0 planM st0 "hi" none none "c" "a" chatP []
    .messageLimit _ rfl

/-- C7 (counterexample to the claim as stated): a text send to an AI chat with
the AI-interaction quota exhausted fails hard, yet the message counter retains
the increment performed at the start of the failed dispatch. -/
theorem sendMessage_hard_failure_retains_counter :
    (sendMessage env0 planA st0 "hi" none none "c" "a" chatAI []).errCode = some .aiLimit
    ∧ (sendMessage env0 planA st0 "hi" none none "c" "a" chatAI []).state.usage.messages
        = st0.usage.messages + 1 :=
  ⟨rfl, rfl⟩

/-- C9: accepting an invitation into a private chat that already has two (or
more) participants reaches the terminal error state without writing back any
participant change; any successful acceptance into a private chat leaves it
with at most two participants. -/
theorem acceptInvitation_private_capacity (cd : ChatData) (userId : String)
    (hp : cd.type = "private") :
    (2 ≤ cd.participants.length →
      handleAcceptInvitation (some cd) userId = .error .privateFull)
    ∧ (∀ cd', handleAcceptInvitation (some cd) userId = .redirecting cd' →
        cd'.participants.length ≤ 2) := by
  constructor
  · intro hlen
    simp [handleAcceptInvitation, hp, hlen]
  · intro cd' h
    simp only [handleAcceptInvitation] at h
    by_cases hfull : 2 ≤ cd.participants.length
    · rw [if_pos ⟨hp, hfull⟩] at h
      simp at h
    · rw [if_neg (by rintro ⟨-, h2⟩; exact hfull h2)] at h
      rw [if_neg (by rw [hp]; decide)] at h
      injection h with h1
      subst h1
      show (arrayUnion cd.participants userId).length ≤ 2
      have hlen := arrayUnion_length cd.participants userId
      omega

theorem acceptInvitation_private_capacity_witness :
    chatP.type = "private" ∧ 2 ≤ chatP.participants.length
    ∧ handleAcceptInvitation (some chatP) "c" = .error .privateFull :=
  ⟨rfl, by decide, (acceptInvitation_private_capacity chatP "c" rfl).1 (by decide)⟩

lemma afterPayload_ai (env : Env) (plan : Plan) (st : SendState) (msg : Message)
    (content userId : String) (chatData : ChatData) (langs : List String)
    (hai : chatData.type = "ai") (hty : msg.type = "text" ∨ msg.type = "audio") :
    afterPayload env plan st msg content userId chatData langs =
      (let text := if msg.type = "audio" then msg.originalContent.getD "" else content
       let msg2 := { msg with content := .str text }
       let c := checkAndIncrementUsage plan st.usage .aiInteractions
       let st1 := { st with usage := c.2, aiChecks := st.aiChecks + 1 }
       if c.1 then addMessage st1 msg2 else .err .aiLimit st1) := by
  unfold afterPayload
  rw [if_pos hty, if_neg (by rw [hai]; decide), if_neg (by rw [hai]; decide), if_pos hai]

lemma afterPayload_group (env : Env) (plan : Plan) (st : SendState) (msg : Message)
    (content userId : String) (chatData : ChatData) (langs : List String)
    (hg : chatData.type = "group") (hty : msg.type = "text" ∨ msg.type = "audio") :
    afterPayload env plan st msg content userId chatData langs =
      addMessage
        (groupTranslate env plan
          (if msg.type = "audio" then msg.originalContent.getD "" else content) langs st).2
        { msg with content := MessageContent.map (groupTranslate env plan
            (if msg.type = "audio" then msg.originalContent.getD "" else content) langs st).1 } := by
  unfold afterPayload
  rw [if_pos hty, if_neg (by rw [hg]; decide), if_pos hg]

lemma afterPayload_private (env : Env) (plan : Plan) (st : SendState) (msg : Message)
    (content userId : String) (chatData : ChatData) (langs : List String)
    (otherId : String) (userData : UserData)
    (hp : chatData.type = "private") (hty : msg.type = "text" ∨ msg.type = "audio")
    (hfind : chatData.participants.find? (fun p => p != userId) = some otherId)
    (huser : env.users otherId = some userData) :
    afterPayload env plan st msg content userId chatData langs =
      (let text := if msg.type = "audio" then msg.originalContent.getD "" else content
       let c := checkAndIncrementUsage plan st.usage .translations
       let st1 := { st with usage := c.2, transChecks := st.transChecks + 1 }
       if c.1 then
         addMessage { st1 with translationCalls := st1.translationCalls + 1 }
           { msg with content :=
               MessageContent.str (translateMessage env text (userData.preferredLang.getD "en")) }
       else addMessage st1 { msg with content := .str text }) := by
  unfold afterPayload
  rw [if_pos hty, if_pos hp]
  simp only [hfind, huser]

lemma sendMessage_audio_eq (env : Env) (plan : Plan) (st : SendState) (content : String)
    (file : Option File) (blob : Blob) (chatId userId : String) (chatData : ChatData)
    (langs : List String)
    (huid : userId ≠ "") (hmsg : st.usage.messages < plan.messagesLimit) :
    sendMessage env plan st content file (some blob) chatId userId chatData langs
      = afterPayload env plan (audioStageState env plan st blob chatId)
          (audioStageMessage env chatId userId) content userId chatData langs := by
  have hv : ¬((strTrim content = "" ∧ file = none ∧ (some blob : Option Blob) = none)
      ∨ userId = "") := by simp [huid]
  have hb : (checkAndIncrementUsage plan st.usage Resource.messages).1 = true := by
    rw [check_messages_pos hmsg]
  simp only [sendMessage]
  rw [if_neg hv, if_pos hb, payloadStage_audio]
  rfl

lemma sendMessage_text_eq (env : Env) (plan : Plan) (st : SendState) (content : String)
    (chatId userId : String) (chatData : ChatData) (langs : List String)
    (huid : userId ≠ "") (hne : strTrim content ≠ "")
    (hmsg : st.usage.messages < plan.messagesLimit) :
    sendMessage env plan st content none none chatId userId chatData langs
      = afterPayload env plan (textStageState plan st)
          (textStageMessage content chatId userId) content userId chatData langs := by
  have hv : ¬((strTrim content = "" ∧ True ∧ True) ∨ userId = "") := by
    simp [huid, hne]
  have hb : (checkAndIncrementUsage plan st.usage Resource.messages).1 = true := by
    rw [check_messages_pos hmsg]
  simp only [sendMessage]
  rw [if_neg hv, if_pos hb, payloadStage_text]
  rfl

/-- C10: an audio send that passes the message-quota gate uploads the blob and
charges the file-storage counter by its byte size unconditionally: no storage
capacity check and no absolute size cap is applied to audio, whatever the
current level of the counter and whatever the size of the blob. -/
theorem sendMessage_audio_storage_unconditional (env : Env) (plan : Plan) (st : SendState)
    (content : String) (file : Option File) (blob : Blob) (chatId userId : String)
    (chatData : ChatData) (langs : List String)
    (huid : userId ≠ "") (hmsg : st.usage.messages < plan.messagesLimit) :
    (sendMessage env plan st content file (some blob) chatId
        userId chatData langs).state.usage.fileStorageBytes
      = st.usage.fileStorageBytes + blob.size
    ∧ (sendMessage env plan st content file (some blob) chatId
        userId chatData langs).state.uploads
      = st.uploads ++
        [("chats/" ++ chatId ++ "/" ++ ("voice_" ++ toString env.now ++ ".webm"),
          blob.size)] := by
  rw [sendMessage_audio_eq env plan st content file blob chatId userId chatData langs
    huid hmsg]
  obtain ⟨hup, hfs, -, -, -, -⟩ := afterPayload_preserves env plan
    (audioStageState env plan st blob chatId) (audioStageMessage env chatId userId)
    content userId chatData langs
  refine ⟨?_, ?_⟩
  · rw [hfs]
    simp [audioStageState, incrementFileStorage]
  · rw [hup]
    simp [audioStageState]

theorem sendMessage_audio_storage_unconditional_witness :
    ("a" : String) ≠ ""
    ∧ stFull.usage.messages < plan0.messagesLimit
    ∧ plan0.fileStorageLimit ≤ stFull.usage.fileStorageBytes
    ∧ 10 * 1024 * 1024 < blobBig.size
    ∧ ((sendMessage env0 plan0 stFull "" none (some blobBig) "c" "a"
          chatP []).state.usage.fileStorageBytes
        = stFull.usage.fileStorageBytes + blobBig.size
       ∧ (sendMessage env0 plan0 stFull "" none (some blobBig) "c" "a"
          chatP []).state.uploads
        = stFull.uploads ++
          [("chats/" ++ "c" ++ "/" ++ ("voice_" ++ toString env0.now ++ ".webm"),
            blobBig.size)]) :=
  ⟨by decide, by decide, by decide, by decide,
   sendMessage_audio_storage_unconditional env0 plan0 stFull "" none blobBig "c" "a"
     chatP [] (by decide) (by decide)⟩

/-- C6 (amended): an audio send that passes the message-quota gate and whose
transcription call fails still completes — with the proviso the claim lacks:
when the chat is an `ai` chat, the AI-interaction quota check must also pass.
The appended record has type `audio` and originalContent `Transcription
failed`, and the storage counter is charged by the byte size of the blob. -/
theorem sendMessage_audio_transcription_failure_completes (env : Env) (plan : Plan)
    (st : SendState) (content : String) (file : Option File) (blob : Blob)
    (chatId userId : String) (chatData : ChatData) (langs : List String)
    (huid : userId ≠ "") (hmsg : st.usage.messages < plan.messagesLimit)
    (htr : env.transcription = none)
    (hai : chatData.type = "ai" → st.usage.aiInteractions < plan.aiInteractionsLimit) :
    (sendMessage env plan st content file (some blob) chatId userId chatData langs).errCode
      = none
    ∧ ((sendMessage env plan st content file (some blob) chatId
          userId chatData langs).state.messages).map (fun m => (m.type, m.originalContent))
      = st.messages.map (fun m => (m.type, m.originalContent))
          ++ [("audio", some "Transcription failed")]
    ∧ (sendMessage env plan st content file (some blob) chatId
          userId chatData langs).state.usage.fileStorageBytes
      = st.usage.fileStorageBytes + blob.size := by
  rw [sendMessage_audio_eq env plan st content file blob chatId userId chatData langs
    huid hmsg]
  have hcond : chatData.type = "ai" →
      (audioStageState env plan st blob chatId).usage.aiInteractions
        < plan.aiInteractionsLimit := by
    intro h
    simpa [audioStageState, incrementFileStorage] using hai h
  obtain ⟨hec, hmap⟩ := afterPayload_ok_shape env plan
    (audioStageState env plan st blob chatId) (audioStageMessage env chatId userId)
    content userId chatData langs hcond
  obtain ⟨-, hfs, -, -, -, -⟩ := afterPayload_preserves env plan
    (audioStageState env plan st blob chatId) (audioStageMessage env chatId userId)
    content userId chatData langs
  refine ⟨hec, ?_, ?_⟩
  · rw [hmap]
    simp [audioStageState, audioStageMessage, htr]
  · rw [hfs]
    simp [audioStageState, incrementFileStorage]

theorem sendMessage_audio_transcription_failure_completes_witness :
    ("a" : String) ≠ "" ∧ st0.usage.messages < plan0.messagesLimit
    ∧ envT.transcription = none
    ∧ (chatAI.type = "ai" → st0.usage.aiInteractions < plan0.aiInteractionsLimit)
    ∧ ((sendMessage envT plan0 st0 "" none (some blob5) "c" "a" chatAI []).errCode = none
       ∧ ((sendMessage envT plan0 st0 "" none (some blob5) "c" "a"
            chatAI []).state.messages).map (fun m => (m.type, m.originalContent))
          = st0.messages.map (fun m => (m.type, m.originalContent))
              ++ [("audio", some "Transcription failed")]
       ∧ (sendMessage envT plan0 st0 "" none (some blob5) "c" "a"
            chatAI []).state.usage.fileStorageBytes
          = st0.usage.fileStorageBytes + blob5.size) :=
  ⟨by decide, by decide, rfl, fun _ => by decide,
   sendMessage_audio_transcription_failure_completes envT plan0 st0 "" none blob5 "c" "a"
     chatAI [] (by decide) (by decide) rfl (fun _ => by decide)⟩

/-- C6 (counterexample to the claim as stated): an audio send into an AI chat
whose AI-interaction quota is exhausted fails hard even though the
transcription call failed non-fatally, so the dispatch does not complete and
no message is appended. -/
theorem sendMessage_audio_transcription_failure_can_abort :
    (sendMessage envT planA st0 "" none (some blob5) "c" "a" chatAI []).errCode
      = some .aiLimit
    ∧ (sendMessage envT planA st0 "" none (some blob5) "c" "a" chatAI []).state.messages
      = [] :=
  ⟨rfl, rfl⟩

lemma ai_gate_core (env : Env) (plan : Plan) (st2 : SendState) (msg : Message)
    (content userId : String) (chatData : ChatData) (langs : List String)
    (hai : chatData.type = "ai") (hty : msg.type = "text" ∨ msg.type = "audio") :
    (afterPayload env plan st2 msg content userId chatData langs).state.transChecks
        = st2.transChecks
    ∧ (afterPayload env plan st2 msg content userId chatData langs).state.usage.translations
        = st2.usage.translations
    ∧ (afterPayload env plan st2 msg content userId chatData langs).state.aiChecks
        = st2.aiChecks + 1
    ∧ (plan.aiInteractionsLimit ≤ st2.usage.aiInteractions →
        (afterPayload env plan st2 msg content userId chatData langs).errCode
            = some .aiLimit
        ∧ (afterPayload env plan st2 msg content userId chatData langs).state.messages
            = st2.messages) := by
  rw [afterPayload_ai env plan st2 msg content userId chatData langs hai hty]
  by_cases hq : st2.usage.aiInteractions < plan.aiInteractionsLimit
  · rw [check_ai_pos hq]
    simp [addMessage, SendResult.state, SendResult.errCode]
    omega
  · rw [check_ai_neg (by omega)]
    simp [addMessage, SendResult.state, SendResult.errCode]

/-- C4: a text or audio send into an `ai` chat never attempts a
translation-quota charge (the translation check counter and the translations
counter are untouched), performs exactly one AI-interaction check, and when
that check is denied the whole send fails with the AI-limit error and no
message is appended. -/
theorem sendMessage_ai_gate (env : Env) (plan : Plan) (st : SendState)
    (content : String) (file : Option File) (audioBlob : Option Blob)
    (chatId userId : String) (chatData : ChatData) (langs : List String)
    (huid : userId ≠ "")
    (hvalid : (∃ b, audioBlob = some b)
        ∨ (file = none ∧ audioBlob = none ∧ strTrim content ≠ ""))
    (hmsg : st.usage.messages < plan.messagesLimit)
    (hai : chatData.type = "ai") :
    (sendMessage env plan st content file audioBlob chatId
        userId chatData langs).state.transChecks = st.transChecks
    ∧ (sendMessage env plan st content file audioBlob chatId
        userId chatData langs).state.usage.translations = st.usage.translations
    ∧ (sendMessage env plan st content file audioBlob chatId
        userId chatData langs).state.aiChecks = st.aiChecks + 1
    ∧ (plan.aiInteractionsLimit ≤ st.usage.aiInteractions →
        (sendMessage env plan st content file audioBlob chatId
            userId chatData langs).errCode = some .aiLimit
        ∧ (sendMessage env plan st content file audioBlob chatId
            userId chatData langs).state.messages = st.messages) := by
  rcases hvalid with ⟨b, rfl⟩ | ⟨hfile, hnone, hne⟩
  · rw [sendMessage_audio_eq env plan st content file b chatId userId chatData langs
      huid hmsg]
    obtain ⟨h1, h2, h3, h4⟩ := ai_gate_core env plan (audioStageState env plan st b chatId)
      (audioStageMessage env chatId userId) content userId chatData langs hai (Or.inr rfl)
    refine ⟨?_, ?_, ?_, ?_⟩
    · rw [h1]
      simp [audioStageState]
    · rw [h2]
      simp [audioStageState, incrementFileStorage]
    · rw [h3]
      simp [audioStageState]
    · intro habs
      have h4x := h4 (by simpa [audioStageState, incrementFileStorage] using habs)
      refine ⟨h4x.1, ?_⟩
      rw [h4x.2]
      simp [audioStageState]
  · subst hfile
    subst hnone
    rw [sendMessage_text_eq env plan st content chatId userId chatData langs
      huid hne hmsg]
    obtain ⟨h1, h2, h3, h4⟩ := ai_gate_core env plan (textStageState plan st)
      (textStageMessage content chatId userId) content userId chatData langs hai
      (Or.inl rfl)
    refine ⟨?_, ?_, ?_, ?_⟩
    · rw [h1]
      simp [textStageState]
    · rw [h2]
      simp [textStageState]
    · rw [h3]
      simp [textStageState]
    · intro habs
      have h4x := h4 (by simpa [textStageState] using habs)
      refine ⟨h4x.1, ?_⟩
      rw [h4x.2]
      simp [textStageState]

theorem sendMessage_ai_gate_witness :
    ("a" : String) ≠ ""
    ∧ ((∃ b, (none : Option Blob) = some b)
        ∨ ((none : Option File) = none ∧ (none : Option Blob) = none
            ∧ strTrim "hi" ≠ ""))
    ∧ st0.usage.messages < planA.messagesLimit
    ∧ chatAI.type = "ai"
    ∧ ((sendMessage env0 planA st0 "hi" none none "c" "a" chatAI []).state.transChecks
          = st0.transChecks
       ∧ (sendMessage env0 planA st0 "hi" none none "c" "a"
            chatAI []).state.usage.translations = st0.usage.translations
       ∧ (sendMessage env0 planA st0 "hi" none none "c" "a" chatAI []).state.aiChecks
          = st0.aiChecks + 1
       ∧ (planA.aiInteractionsLimit ≤ st0.usage.aiInteractions →
          (sendMessage env0 planA st0 "hi" none none "c" "a" chatAI []).errCode
              = some .aiLimit
          ∧ (sendMessage env0 planA st0 "hi" none none "c" "a" chatAI []).state.messages
              = st0.messages)) :=
  ⟨by decide, Or.inr ⟨rfl, rfl, by decide⟩, by decide, rfl,
   sendMessage_ai_gate env0 planA st0 "hi" none none "c" "a" chatAI []
     (by decide) (Or.inr ⟨rfl, rfl, by decide⟩) (by decide) rfl⟩

lemma private_core (env : Env) (plan : Plan) (st2 : SendState) (msg : Message)
    (content userId : String) (chatData : ChatData) (langs : List String)
    (otherId : String) (userData : UserData)
    (hp : chatData.type = "private") (hty : msg.type = "text" ∨ msg.type = "audio")
    (hfind : chatData.participants.find? (fun p => p != userId) = some otherId)
    (huser : env.users otherId = some userData) :
    (st2.usage.translations < plan.translationsLimit →
      (afterPayload env plan st2 msg content userId chatData langs).errCode = none
      ∧ ((afterPayload env plan st2 msg content userId chatData langs).state.messages).map
            Message.content
          = st2.messages.map Message.content
            ++ [MessageContent.str (translateMessage env
                  (if msg.type = "audio" then msg.originalContent.getD "" else content)
                  (userData.preferredLang.getD "en"))])
    ∧ (plan.translationsLimit ≤ st2.usage.translations →
      (afterPayload env plan st2 msg content userId chatData langs).errCode = none
      ∧ ((afterPayload env plan st2 msg content userId chatData langs).state.messages).map
            Message.content
          = st2.messages.map Message.content
            ++ [MessageContent.str
                  (if msg.type = "audio" then msg.originalContent.getD "" else content)]) := by
  rw [afterPayload_private env plan st2 msg content userId chatData langs otherId userData
    hp hty hfind huser]
  constructor
  · intro hq
    rw [check_translations_pos hq]
    simp [addMessage, SendResult.errCode, SendResult.state]
  · intro hq
    rw [check_translations_neg hq]
    simp [addMessage, SendResult.errCode, SendResult.state]

lemma textToTranslate_audio (env : Env) (content chatId userId : String) (b : Blob) :
    (if (audioStageMessage env chatId userId).type = "audio" then
        (audioStageMessage env chatId userId).originalContent.getD "" else content)
      = textToTranslate env content (some b) := by
  cases htr : env.transcription <;> simp [audioStageMessage, textToTranslate, htr]

lemma textToTranslate_text (env : Env) (content chatId userId : String) :
    (if (textStageMessage content chatId userId).type = "audio" then
        (textStageMessage content chatId userId).originalContent.getD "" else content)
      = textToTranslate env content none := by
  simp [textStageMessage, textToTranslate]

/-- C2: a text or audio send into a private chat where the profile of the other
participant is found translates into the preferred language of that participant
(default `en`) when the translation-quota check passes, and silently keeps the
original text (no error) when the check is denied — in both cases exactly one
message is appended and its content is as described. -/
theorem sendMessage_private_translation (env : Env) (plan : Plan) (st : SendState)
    (content : String) (file : Option File) (audioBlob : Option Blob)
    (chatId userId : String) (chatData : ChatData) (langs : List String)
    (otherId : String) (userData : UserData)
    (huid : userId ≠ "")
    (hvalid : (∃ b, audioBlob = some b)
        ∨ (file = none ∧ audioBlob = none ∧ strTrim content ≠ ""))
    (hmsg : st.usage.messages < plan.messagesLimit)
    (hp : chatData.type = "private")
    (hfind : chatData.participants.find? (fun p => p != userId) = some otherId)
    (huser : env.users otherId = some userData) :
    (st.usage.translations < plan.translationsLimit →
      (sendMessage env plan st content file audioBlob chatId
          userId chatData langs).errCode = none
      ∧ ((sendMessage env plan st content file audioBlob chatId
            userId chatData langs).state.messages).map Message.content
          = st.messages.map Message.content
            ++ [MessageContent.str (translateMessage env
                  (textToTranslate env content audioBlob)
                  (userData.preferredLang.getD "en"))])
    ∧ (plan.translationsLimit ≤ st.usage.translations →
      (sendMessage env plan st content file audioBlob chatId
          userId chatData langs).errCode = none
      ∧ ((sendMessage env plan st content file audioBlob chatId
            userId chatData langs).state.messages).map Message.content
          = st.messages.map Message.content
            ++ [MessageContent.str (textToTranslate env content audioBlob)]) := by
  rcases hvalid with ⟨b, rfl⟩ | ⟨hfile, hnone, hne⟩
  · rw [sendMessage_audio_eq env plan st content file b chatId userId chatData langs
      huid hmsg]
    have hcore := private_core env plan (audioStageState env plan st b chatId)
      (audioStageMessage env chatId userId) content userId chatData langs otherId userData
      hp (Or.inr rfl) hfind huser
    rw [textToTranslate_audio env content chatId userId b] at hcore
    rw [show (audioStageState env plan st b chatId).usage.translations
        = st.usage.translations from by simp [audioStageState, incrementFileStorage]]
      at hcore
    rw [show (audioStageState env plan st b chatId).messages = st.messages from rfl]
      at hcore
    exact hcore
  · subst hfile
    subst hnone
    rw [sendMessage_text_eq env plan st content chatId userId chatData langs
      huid hne hmsg]
    have hcore := private_core env plan (textStageState plan st)
      (textStageMessage content chatId userId) content userId chatData langs
      otherId userData hp (Or.inl rfl) hfind huser
    rw [textToTranslate_text env content chatId userId] at hcore
    rw [show (textStageState plan st).usage.translations = st.usage.translations
        from by simp [textStageState]] at hcore
    rw [show (textStageState plan st).messages = st.messages from rfl] at hcore
    exact hcore

theorem sendMessage_private_translation_witness :
    ("a" : String) ≠ ""
    ∧ ((∃ b, (none : Option Blob) = some b)
        ∨ ((none : Option File) = none ∧ (none : Option Blob) = none
            ∧ strTrim "hi" ≠ ""))
    ∧ st0.usage.messages < plan0.messagesLimit
    ∧ chatP.type = "private"
    ∧ chatP.participants.find? (fun p => p != "a") = some "b"
    ∧ env0.users "b" = some { preferredLang := some "fr" }
    ∧ ((st0.usage.translations < plan0.translationsLimit →
        (sendMessage env0 plan0 st0 "hi" none none "c" "a" chatP []).errCode = none
        ∧ ((sendMessage env0 plan0 st0 "hi" none none "c" "a"
              chatP []).state.messages).map Message.content
            = st0.messages.map Message.content
              ++ [MessageContent.str (translateMessage env0
                    (textToTranslate env0 "hi" none)
                    (UserData.preferredLang { preferredLang := some "fr" } |>.getD "en"))])
       ∧ (plan0.translationsLimit ≤ st0.usage.translations →
        (sendMessage env0 plan0 st0 "hi" none none "c" "a" chatP []).errCode = none
        ∧ ((sendMessage env0 plan0 st0 "hi" none none "c" "a"
              chatP []).state.messages).map Message.content
            = st0.messages.map Message.content
              ++ [MessageContent.str (textToTranslate env0 "hi" none)])) :=
  ⟨by decide, Or.inr ⟨rfl, rfl, by decide⟩, by decide, rfl, rfl, rfl,
   sendMessage_private_translation env0 plan0 st0 "hi" none none "c" "a" chatP []
     "b" { preferredLang := some "fr" } (by decide) (Or.inr ⟨rfl, rfl, by decide⟩)
     (by decide) rfl rfl rfl⟩

/-- C3: a text or audio send into a group chat appends one message whose
content is a mapping built over exactly the languages of
`participantLanguages`, each language attempting its own translation-quota
charge in list order: position `i` maps to the translated text when
`translations + i` is still below the limit and to the original text once the
quota is exhausted, and the translation-check counter grows by the number of
languages. -/
theorem sendMessage_group_translation (env : Env) (plan : Plan) (st : SendState)
    (content : String) (file : Option File) (audioBlob : Option Blob)
    (chatId userId : String) (chatData : ChatData) (langs : List String)
    (huid : userId ≠ "")
    (hvalid : (∃ b, audioBlob = some b)
        ∨ (file = none ∧ audioBlob = none ∧ strTrim content ≠ ""))
    (hmsg : st.usage.messages < plan.messagesLimit)
    (hg : chatData.type = "group") :
    ∃ pairs : List (String × String),
      (sendMessage env plan st content file audioBlob chatId
          userId chatData langs).errCode = none
      ∧ ((sendMessage env plan st content file audioBlob chatId
            userId chatData langs).state.messages).map Message.content
          = st.messages.map Message.content ++ [MessageContent.map pairs]
      ∧ pairs.map Prod.fst = langs
      ∧ (∀ i, ∀ h : i < langs.length, pairs[i]? = some (langs.get ⟨i, h⟩,
            if st.usage.translations + i < plan.translationsLimit then
              translateMessage env (textToTranslate env content audioBlob)
                (langs.get ⟨i, h⟩)
            else textToTranslate env content audioBlob))
      ∧ (sendMessage env plan st content file audioBlob chatId
            userId chatData langs).state.transChecks = st.transChecks + langs.length := by
  rcases hvalid with ⟨b, rfl⟩ | ⟨hfile, hnone, hne⟩
  · rw [sendMessage_audio_eq env plan st content file b chatId userId chatData langs
      huid hmsg]
    rw [afterPayload_group env plan (audioStageState env plan st b chatId)
      (audioStageMessage env chatId userId) content userId chatData langs hg (Or.inr rfl)]
    rw [textToTranslate_audio env content chatId userId b]
    refine ⟨(groupTranslate env plan (textToTranslate env content (some b)) langs
        (audioStageState env plan st b chatId)).1, ?_, ?_, ?_, ?_, ?_⟩
    · simp [addMessage, SendResult.errCode]
    · simp [addMessage, SendResult.state, groupTranslate_messages, audioStageState]
    · exact groupTranslate_fst env plan _ langs _
    · intro i h
      have hidx := groupTranslate_idx env plan (textToTranslate env content (some b))
        langs (audioStageState env plan st b chatId) i h
      rw [show (audioStageState env plan st b chatId).usage.translations
          = st.usage.translations from by simp [audioStageState, incrementFileStorage]]
        at hidx
      exact hidx
    · simp [addMessage, SendResult.state, groupTranslate_transChecks, audioStageState]
  · subst hfile
    subst hnone
    rw [sendMessage_text_eq env plan st content chatId userId chatData langs
      huid hne hmsg]
    rw [afterPayload_group env plan (textStageState plan st)
      (textStageMessage content chatId userId) content userId chatData langs hg
      (Or.inl rfl)]
    rw [textToTranslate_text env content chatId userId]
    refine ⟨(groupTranslate env plan (textToTranslate env content none) langs
        (textStageState plan st)).1, ?_, ?_, ?_, ?_, ?_⟩
    · simp [addMessage, SendResult.errCode]
    · simp [addMessage, SendResult.state, groupTranslate_messages, textStageState]
    · exact groupTranslate_fst env plan _ langs _
    · intro i h
      have hidx := groupTranslate_idx env plan (textToTranslate env content none)
        langs (textStageState plan st) i h
      rw [show (textStageState plan st).usage.translations = st.usage.translations
          from by simp [textStageState]] at hidx
      exact hidx
    · simp [addMessage, SendResult.state, groupTranslate_transChecks, textStageState]

theorem sendMessage_group_translation_witness :
    ("a" : String) ≠ ""
    ∧ ((∃ b, (none : Option Blob) = some b)
        ∨ ((none : Option File) = none ∧ (none : Option Blob) = none
            ∧ strTrim "hi" ≠ ""))
    ∧ st0.usage.messages < planT1.messagesLimit
    ∧ chatG.type = "group"
    ∧ (∃ pairs : List (String × String),
        (sendMessage env0 planT1 st0 "hi" none none "c" "a"
            chatG ["fr", "es"]).errCode = none
        ∧ ((sendMessage env0 planT1 st0 "hi" none none "c" "a"
              chatG ["fr", "es"]).state.messages).map Message.content
            = st0.messages.map Message.content ++ [MessageContent.map pairs]
        ∧ pairs.map Prod.fst = ["fr", "es"]
        ∧ (∀ i, ∀ h : i < (["fr", "es"] : List String).length,
            pairs[i]? = some ((["fr", "es"] : List String).get ⟨i, h⟩,
              if st0.usage.translations + i < planT1.translationsLimit then
                translateMessage env0 (textToTranslate env0 "hi" none)
                  ((["fr", "es"] : List String).get ⟨i, h⟩)
              else textToTranslate env0 "hi" none))
        ∧ (sendMessage env0 planT1 st0 "hi" none none "c" "a"
              chatG ["fr", "es"]).state.transChecks
            = st0.transChecks + (["fr", "es"] : List String).length) :=
  ⟨by decide, Or.inr ⟨rfl, rfl, by decide⟩, by decide, rfl,
   sendMessage_group_translation env0 planT1 st0 "hi" none none "c" "a" chatG
     ["fr", "es"] (by decide) (Or.inr ⟨rfl, rfl, by decide⟩) (by decide) rfl⟩

end Nimbus
